import Mathlib

/-
Verification of the urlshort package (src/handler.go).

Modelling choices:
- A Go map from string to string is embedded as a partial function
  String → Option String; a key is present exactly when lookup returns some.
- An http.Request is embedded by the components the code reads: r.URL.Path,
  plus the request method, so that distinct requests can share a path.
- The body of the handler closure returned by MapHandler either calls
  http.Redirect(w, r, url, http.StatusFound) and returns, or calls
  fallback.ServeHTTP(w, r). We embed the observable behaviour as the
  inductive HandlerAction: a redirect with its target URL and status code,
  or serving the fallback (carrying the fallback output on that request).
- yaml.Unmarshal is third-party library code outside this repository, so it
  is abstracted as a parameter (an Unmarshaller) producing the decoded slice
  together with an optional error, exactly the shape the Go call site sees.
-/

namespace Urlshort

/-- Embeds the URL component of an http.Request; the code reads only Path. -/
structure URL where
  Path : String
deriving DecidableEq, Repr

/-- Embeds an http.Request: the handler reads r.URL.Path; Method stands for
the rest of the request, letting distinct requests share a path. -/
structure Request where
  url : URL
  Method : String
deriving DecidableEq, Repr

/-- Observable behaviour of one run of the handler closure: either
http.Redirect was called with a target URL and a status code, or
fallback.ServeHTTP was called (resp is the fallback output on the request). -/
inductive HandlerAction (α : Type) where
  | redirect (url : String) (status : Nat)
  | fallbackServe (resp : α)
deriving DecidableEq, Repr

/-- http.StatusFound from net/http. -/
def StatusFound : Nat := 302

/-- Embeds MapHandler (src/handler.go lines 21 to 31): looks up r.URL.Path in
pathsToUrls; on a hit calls http.Redirect with the mapped URL and
http.StatusFound, otherwise calls fallback.ServeHTTP on the request. -/
def MapHandler {α : Type} (pathsToUrls : String → Option String)
    (fallback : Request → α) : Request → HandlerAction α :=
  fun r =>
    match pathsToUrls r.url.Path with
    | some url => HandlerAction.redirect url StatusFound
    | none => HandlerAction.fallbackServe (fallback r)

/-- Embeds the YAMLPathURL struct (src/handler.go lines 10 to 13). -/
structure YAMLPathURL where
  URL : String
  Path : String
deriving DecidableEq, Repr

/-- Embeds the Go map assignment pathsToUrls[path] = url: the updated map
binds path to url and agrees with the old map elsewhere. -/
def mapInsert (m : String → Option String) (p u : String) :
    String → Option String :=
  fun k => if k = p then some u else m k

/-- Embeds makeYAMLToMap (src/handler.go lines 73 to 79): starts from the
empty map and inserts each entry in list order, later entries overwriting
earlier ones with the same Path. -/
def makeYAMLToMap (yamlPathURLs : List YAMLPathURL) : String → Option String :=
  yamlPathURLs.foldl (fun m e => mapInsert m e.Path e.URL) (fun _ => none)

/-- The byte slice holding the YAML text; its internal structure is never
inspected by the code under verification. -/
def Bytes : Type := List Nat

/-- The shape of yaml.Unmarshal as seen from parseYAML: it fills the slice
and returns an optional error. The library itself is outside the repository,
so the development is parametric in it. -/
def Unmarshaller : Type := Bytes → List YAMLPathURL × Option String

/-- Embeds parseYAML (src/handler.go lines 64 to 69): calls yaml.Unmarshal
on the input and returns the decoded slice together with the error. -/
def parseYAML (unmarshal : Unmarshaller) (yml : Bytes) :
    List YAMLPathURL × Option String :=
  unmarshal yml

/-- Embeds YAMLHandler (src/handler.go lines 49 to 60): parses the YAML; on
a parse error returns the still-nil handler variable together with the error;
on success builds the map and returns MapHandler on it with a nil error. -/
def YAMLHandler {α : Type} (unmarshal : Unmarshaller) (yml : Bytes)
    (fallback : Request → α) :
    Option (Request → HandlerAction α) × Option String :=
  match (parseYAML unmarshal yml).2 with
  | some e => (none, some e)
  | none =>
      (some (MapHandler (makeYAMLToMap (parseYAML unmarshal yml).1) fallback),
        none)

/-- The dispatch decision alone: which of the two actions was chosen, with
the redirect target and status but without the fallback output. -/
inductive Dispatch where
  | redirect (url : String) (status : Nat)
  | delegate
deriving DecidableEq, Repr

/-- Projects a handler action to its dispatch decision. -/
def dispatchOf {α : Type} : HandlerAction α → Dispatch
  | HandlerAction.redirect u s => Dispatch.redirect u s
  | HandlerAction.fallbackServe _ => Dispatch.delegate

/-- Explicit-state reading of the handler closure body (src/handler.go lines
22 to 29): the state carries the captured pathsToUrls map and the response
written so far; serving a request writes the response and touches nothing
else. -/
structure ServerState (α : Type) where
  pathsToUrls : String → Option String
  response : Option (HandlerAction α)

/-- One run of the closure body on state s: looks up r.URL.Path in the
captured map, writes either the redirect or the fallback output as the
response, and leaves the rest of the state alone. -/
def serveHTTP {α : Type} (fallback : Request → α) (r : Request)
    (s : ServerState α) : ServerState α :=
  match s.pathsToUrls r.url.Path with
  | some url =>
      { s with response := some (HandlerAction.redirect url StatusFound) }
  | none =>
      { s with response := some (HandlerAction.fallbackServe (fallback r)) }

/-- C1: for every request and every paths-to-URLs mapping, the handler built
by MapHandler redirects to the mapped URL when the request path is a key of
the mapping, and otherwise invokes the fallback on the request; exactly one
of the two actions occurs. -/
theorem MapHandler_dispatches_exclusively {α : Type}
    (pathsToUrls : String → Option String) (fallback : Request → α)
    (r : Request) :
    (∃ url, pathsToUrls r.url.Path = some url ∧
        MapHandler pathsToUrls fallback r = HandlerAction.redirect url StatusFound ∧
        MapHandler pathsToUrls fallback r ≠ HandlerAction.fallbackServe (fallback r))
    ∨ (pathsToUrls r.url.Path = none ∧
        MapHandler pathsToUrls fallback r = HandlerAction.fallbackServe (fallback r) ∧
        ∀ url status,
          MapHandler pathsToUrls fallback r ≠ HandlerAction.redirect url status) := by
  cases h : pathsToUrls r.url.Path with
  | some url =>
      exact Or.inl ⟨url, rfl, by simp [MapHandler, h], by simp [MapHandler, h]⟩
  | none =>
      exact Or.inr ⟨rfl, by simp [MapHandler, h], by simp [MapHandler, h]⟩

/-- C5: when the request path is found in the mapping, the handler issues a
redirect carrying HTTP status 302 (http.StatusFound) and the mapped URL as
the target. -/
theorem MapHandler_redirect_status_found {α : Type}
    (pathsToUrls : String → Option String) (fallback : Request → α)
    (r : Request) (url : String)
    (h : pathsToUrls r.url.Path = some url) :
    MapHandler pathsToUrls fallback r = HandlerAction.redirect url 302 := by
  simp [MapHandler, h, StatusFound]

/-- A concrete mapping used by witnesses: one entry sending /a to an
example URL. -/
def demoEntries : List YAMLPathURL := [⟨"https://example.com/demo", "/a"⟩]

/-- A concrete fallback used by witnesses: echoes the request path. -/
def demoFallback : Request → String := fun r => r.url.Path

/-- Witness for C5: the singleton mapping sends the request for /a to a
302 redirect at the mapped URL. -/
theorem MapHandler_redirect_status_found_witness :
    makeYAMLToMap demoEntries "/a" = some "https://example.com/demo" ∧
    MapHandler (makeYAMLToMap demoEntries) demoFallback ⟨⟨"/a"⟩, "GET"⟩
      = HandlerAction.redirect "https://example.com/demo" 302 :=
  ⟨by decide,
    MapHandler_redirect_status_found (makeYAMLToMap demoEntries) demoFallback
      ⟨⟨"/a"⟩, "GET"⟩ "https://example.com/demo" (by decide)⟩

/-- C4: lookup is exact string equality on the whole request path: whenever
the path differs from every key of the mapping, the handler delegates to the
fallback, with no wildcard or prefix matching. -/
theorem MapHandler_exact_match_only {α : Type}
    (pathsToUrls : String → Option String) (fallback : Request → α)
    (r : Request)
    (h : ∀ k : String, pathsToUrls k ≠ none → r.url.Path ≠ k) :
    MapHandler pathsToUrls fallback r = HandlerAction.fallbackServe (fallback r) := by
  have hnone : pathsToUrls r.url.Path = none := by
    by_contra hc
    exact h r.url.Path hc rfl
  simp [MapHandler, hnone]

/-- A request whose path /a/sub extends the key /a without equalling it. -/
def demoExtRequest : Request := ⟨⟨"/a/sub"⟩, "GET"⟩

/-- Witness for C4: the path /a/sub extends the sole key /a yet is equal to
no key, so the handler delegates to the fallback. -/
theorem MapHandler_exact_match_only_witness :
    (∀ k : String, makeYAMLToMap demoEntries k ≠ none →
        demoExtRequest.url.Path ≠ k) ∧
    MapHandler (makeYAMLToMap demoEntries) demoFallback demoExtRequest
      = HandlerAction.fallbackServe (demoFallback demoExtRequest) := by
  have h : ∀ k : String, makeYAMLToMap demoEntries k ≠ none →
      demoExtRequest.url.Path ≠ k := by
    intro k hk
    by_cases hka : k = "/a"
    · subst hka; decide
    · exfalso
      apply hk
      simp [makeYAMLToMap, demoEntries, mapInsert, hka]
  exact ⟨h, MapHandler_exact_match_only (makeYAMLToMap demoEntries)
    demoFallback demoExtRequest h⟩

/-- C2: on every YAML input that parses successfully into a list of
path/URL pairs, YAMLHandler returns (with a nil error) a handler that acts
exactly as MapHandler on the map built from that list with the same
fallback, on every request. -/
theorem YAMLHandler_refines_MapHandler {α : Type} (unmarshal : Unmarshaller)
    (yml : Bytes) (fallback : Request → α) (entries : List YAMLPathURL)
    (h : unmarshal yml = (entries, none)) :
    ∃ hdl, YAMLHandler unmarshal yml fallback = (some hdl, none) ∧
      ∀ r : Request, hdl r = MapHandler (makeYAMLToMap entries) fallback r := by
  refine ⟨MapHandler (makeYAMLToMap entries) fallback, ?_, fun r => rfl⟩
  simp [YAMLHandler, parseYAML, h]

/-- A concrete successful unmarshaller used by witnesses: every input
decodes to demoEntries with a nil error. -/
def demoUnmarshal : Unmarshaller := fun _ => (demoEntries, none)

/-- A concrete byte input used by witnesses. -/
def demoYml : Bytes := []

/-- Witness for C2: on an input that demoUnmarshal decodes to demoEntries,
YAMLHandler returns a handler agreeing with MapHandler on the built map. -/
theorem YAMLHandler_refines_MapHandler_witness :
    demoUnmarshal demoYml = (demoEntries, none) ∧
    ∃ hdl, YAMLHandler demoUnmarshal demoYml demoFallback = (some hdl, none) ∧
      ∀ r : Request, hdl r = MapHandler (makeYAMLToMap demoEntries) demoFallback r :=
  ⟨rfl, YAMLHandler_refines_MapHandler demoUnmarshal demoYml demoFallback
    demoEntries rfl⟩

/-- C3: the error component YAMLHandler returns is exactly the one produced
by parsing, propagated unchanged; in particular it is non-nil exactly when
unmarshalling the YAML fails, and no other failure mode exists. -/
theorem YAMLHandler_error_iff_parse_error {α : Type} (unmarshal : Unmarshaller)
    (yml : Bytes) (fallback : Request → α) :
    (YAMLHandler unmarshal yml fallback).2 = (parseYAML unmarshal yml).2 ∧
    ((YAMLHandler unmarshal yml fallback).2 ≠ none ↔
      (unmarshal yml).2 ≠ none) := by
  constructor
  · cases h : (parseYAML unmarshal yml).2 with
    | some e => simp [YAMLHandler, h]
    | none => simp [YAMLHandler, h]
  · cases h : (unmarshal yml).2 with
    | some e => simp [YAMLHandler, parseYAML, h]
    | none => simp [YAMLHandler, parseYAML, h]

/-- C6: the dispatch decision is a pure function of the request path and the
mapping: two requests with equal paths, handled against pointwise-equal
mappings with the same fallback, yield the same decision (same redirect URL
and status, or both delegate). -/
theorem MapHandler_decision_pure {α : Type}
    (m1 m2 : String → Option String) (fallback : Request → α)
    (r1 r2 : Request)
    (hpath : r1.url.Path = r2.url.Path) (hm : ∀ k, m1 k = m2 k) :
    dispatchOf (MapHandler m1 fallback r1)
      = dispatchOf (MapHandler m2 fallback r2) := by
  have hmeq : m1 = m2 := funext hm
  subst hmeq
  simp only [MapHandler, hpath]
  cases m1 r2.url.Path <;> rfl

/-- Witness for C6: a GET and a POST request for the same path /a receive
the same dispatch decision under the demo mapping. -/
theorem MapHandler_decision_pure_witness :
    (⟨⟨"/a"⟩, "GET"⟩ : Request).url.Path = (⟨⟨"/a"⟩, "POST"⟩ : Request).url.Path ∧
    (∀ k, makeYAMLToMap demoEntries k = makeYAMLToMap demoEntries k) ∧
    dispatchOf (MapHandler (makeYAMLToMap demoEntries) demoFallback ⟨⟨"/a"⟩, "GET"⟩)
      = dispatchOf
        (MapHandler (makeYAMLToMap demoEntries) demoFallback ⟨⟨"/a"⟩, "POST"⟩) :=
  ⟨rfl, fun _ => rfl,
    MapHandler_decision_pure (makeYAMLToMap demoEntries) (makeYAMLToMap demoEntries)
      demoFallback ⟨⟨"/a"⟩, "GET"⟩ ⟨⟨"/a"⟩, "POST"⟩ rfl (fun _ => rfl)⟩

/-- C7: serving a request never modifies the mapping: in the explicit-state
reading of the closure body, the pathsToUrls component of the state after a
run is the one before, and the run only writes the response, which is the
MapHandler action on that map. -/
theorem serveHTTP_preserves_mapping {α : Type} (fallback : Request → α)
    (r : Request) (s : ServerState α) :
    (serveHTTP fallback r s).pathsToUrls = s.pathsToUrls ∧
    (serveHTTP fallback r s).response
      = some (MapHandler s.pathsToUrls fallback r) := by
  unfold serveHTTP MapHandler
  cases s.pathsToUrls r.url.Path <;> exact ⟨rfl, rfl⟩

/-- Inserting entries none of whose Path equals k leaves the binding at k
unchanged: the loop of makeYAMLToMap only touches the keys it inserts. -/
theorem foldl_mapInsert_untouched (l : List YAMLPathURL)
    (m : String → Option String) (k : String)
    (h : ∀ e ∈ l, e.Path ≠ k) :
    l.foldl (fun m e => mapInsert m e.Path e.URL) m k = m k := by
  induction l generalizing m with
  | nil => rfl
  | cons a t ih =>
      rw [List.foldl_cons, ih _ (fun e he => h e (List.mem_cons_of_mem a he))]
      unfold mapInsert
      rw [if_neg (fun hk => h a (List.mem_cons_self a t) hk.symm)]

/-- C8: when the decoded list holds several entries with the same path, the
map built by makeYAMLToMap binds that path to the URL of the last such entry
in list order: any entry is the binding for its path provided no later entry
shares it. -/
theorem makeYAMLToMap_last_entry_wins (l1 l2 : List YAMLPathURL)
    (e : YAMLPathURL) (h : ∀ e2 ∈ l2, e2.Path ≠ e.Path) :
    makeYAMLToMap (l1 ++ e :: l2) e.Path = some e.URL := by
  unfold makeYAMLToMap
  rw [List.foldl_append, List.foldl_cons, foldl_mapInsert_untouched l2 _ _ h]
  unfold mapInsert
  rw [if_pos rfl]

/-- Witness for C8: with two entries for /a, the built map binds /a to the
URL of the second entry. -/
theorem makeYAMLToMap_last_entry_wins_witness :
    (∀ e2 ∈ ([] : List YAMLPathURL),
        e2.Path ≠ (⟨"https://new.example", "/a"⟩ : YAMLPathURL).Path) ∧
    makeYAMLToMap
        [⟨"https://old.example", "/a"⟩, ⟨"https://new.example", "/a"⟩] "/a"
      = some "https://new.example" :=
  ⟨fun e2 h2 => absurd h2 (List.not_mem_nil e2),
    makeYAMLToMap_last_entry_wins [⟨"https://old.example", "/a"⟩] []
      ⟨"https://new.example", "/a"⟩
      (fun e2 h2 => absurd h2 (List.not_mem_nil e2))⟩

/-- C9: when parsing fails, YAMLHandler returns the nil handler together with
that error: no partially built handler is produced on the error path. -/
theorem YAMLHandler_nil_handler_on_error {α : Type} (unmarshal : Unmarshaller)
    (yml : Bytes) (fallback : Request → α) (e : String)
    (h : (unmarshal yml).2 = some e) :
    YAMLHandler unmarshal yml fallback = (none, some e) := by
  simp [YAMLHandler, parseYAML, h]

/-- A concrete failing unmarshaller used by witnesses: every input yields a
parse error. -/
def demoFailUnmarshal : Unmarshaller := fun _ => ([], some "yaml: parse error")

/-- Witness for C9: on an input the failing unmarshaller rejects, YAMLHandler
returns the nil handler with the parse error. -/
theorem YAMLHandler_nil_handler_on_error_witness :
    (demoFailUnmarshal demoYml).2 = some "yaml: parse error" ∧
    YAMLHandler demoFailUnmarshal demoYml demoFallback
      = (none, some "yaml: parse error") :=
  ⟨rfl, YAMLHandler_nil_handler_on_error demoFailUnmarshal demoYml demoFallback
    "yaml: parse error" rfl⟩

/-- C10: from an empty list of path/URL pairs the built map is empty, so the
resulting handler delegates every request to the fallback and never
redirects. -/
theorem makeYAMLToMap_nil_always_delegates {α : Type} (fallback : Request → α)
    (r : Request) :
    makeYAMLToMap [] r.url.Path = none ∧
    MapHandler (makeYAMLToMap []) fallback r
      = HandlerAction.fallbackServe (fallback r) ∧
    ∀ url status,
      MapHandler (makeYAMLToMap []) fallback r
        ≠ HandlerAction.redirect url status := by
  refine ⟨rfl, rfl, fun url status hcontra => ?_⟩
  simp [MapHandler, makeYAMLToMap] at hcontra
